import Mathlib

/-!
Shallow embedding of the sqlbase backend (Go) connection broker, query
executor, schema introspector and configuration encryption, together with
theorems settling the specification claims.

Sources embedded:
- apps/backend/auth/encryption.go (AES-256-GCM config encryption, SHA-256
  key derivation, base64 storage encoding)
- apps/backend/handlers/sql_playground.go (query validation, LIMIT
  bounding, result shaping, schema introspection)
- apps/backend/handlers/database_config.go (connection broker cache,
  connection construction and cleanup, configuration switching)

Machine integers are modelled as Nat with explicit reductions modulo
2^8 / 2^32 / 2^128 where the Go code relies on fixed-width arithmetic.
Byte strings are List Nat with every element < 256.
-/

namespace SqlBase

/-! ## Generic byte-string helpers -/

/-- Byte strings: Go byte slices are lists of naturals below 256. -/
abbrev Bytes := List Nat

/-- Validity of a byte string: every element fits in one byte. -/
def bytesOk (l : Bytes) : Prop := ∀ b ∈ l, b < 256

instance bytesOkDecidable (l : Bytes) : Decidable (bytesOk l) := by
  unfold bytesOk; infer_instance

/-- Split a list into chunks of n elements (fuelled, fuel = list length). -/
def chunksOfAux (n : Nat) : Nat → List α → List (List α)
  | 0, _ => []
  | _, [] => []
  | fuel + 1, l => l.take n :: chunksOfAux n fuel (l.drop n)

/-- Split a list into chunks of n elements. -/
def chunksOf (n : Nat) (l : List α) : List (List α) :=
  chunksOfAux n l.length l

/-- Big-endian 8-byte encoding of a natural number (Go binary.BigEndian). -/
def be64 (n : Nat) : Bytes :=
  (List.range 8).map (fun i => (n >>> (8 * (7 - i))) % 256)

/-- Big-endian 4-byte encoding of a 32-bit word. -/
def be32 (n : Nat) : Bytes :=
  (List.range 4).map (fun i => (n >>> (8 * (3 - i))) % 256)

/-- Assemble a big-endian 32-bit word from four bytes. -/
def word32OfBytes (b : Bytes) : Nat :=
  b.getD 0 0 * 16777216 + b.getD 1 0 * 65536 + b.getD 2 0 * 256 + b.getD 3 0

/-! ## SHA-256 (crypto/sha256), used by NewConfigEncryption and deriveUserKey -/

/-- SHA-256 round constants (FIPS 180-4), written in decimal. -/
def shaK : List Nat :=
  [1116352408, 1899447441, 3049323471, 3921009573, 961987163, 1508970993,
   2453635748, 2870763221, 3624381080, 310598401, 607225278, 1426881987,
   1925078388, 2162078206, 2614888103, 3248222580, 3835390401, 4022224774,
   264347078, 604807628, 770255983, 1249150122, 1555081692, 1996064986,
   2554220882, 2821834349, 2952996808, 3210313671, 3336571891, 3584528711,
   113926993, 338241895, 666307205, 773529912, 1294757372, 1396182291,
   1695183700, 1986661051, 2177026350, 2456956037, 2730485921, 2820302411,
   3259730800, 3345764771, 3516065817, 3600352804, 4094571909, 275423344,
   430227734, 506948616, 659060556, 883997877, 958139571, 1322822218,
   1537002063, 1747873779, 1955562222, 2024104815, 2227730452, 2361852424,
   2428436474, 2756734187, 3204031479, 3329325298]

/-- SHA-256 initial hash state (FIPS 180-4), written in decimal. -/
def shaH0 : List Nat :=
  [1779033703, 3144134277, 1013904242, 2773480762,
   1359893119, 2600822924, 528734635, 1541459225]

/-- Right rotation of a 32-bit word. -/
def rotr32 (x n : Nat) : Nat :=
  ((x >>> n) ||| (x <<< (32 - n))) % 4294967296

/-- SHA-256 message-schedule sigma-0. -/
def shaSigma0 (x : Nat) : Nat := rotr32 x 7 ^^^ rotr32 x 18 ^^^ (x >>> 3)

/-- SHA-256 message-schedule sigma-1. -/
def shaSigma1 (x : Nat) : Nat := rotr32 x 17 ^^^ rotr32 x 19 ^^^ (x >>> 10)

/-- SHA-256 compression Sigma-0. -/
def shaBigSigma0 (x : Nat) : Nat := rotr32 x 2 ^^^ rotr32 x 13 ^^^ rotr32 x 22

/-- SHA-256 compression Sigma-1. -/
def shaBigSigma1 (x : Nat) : Nat := rotr32 x 6 ^^^ rotr32 x 11 ^^^ rotr32 x 25

/-- Extend the 16-word block to the 64-word message schedule. -/
def shaExtend (w : List Nat) : Nat → List Nat
  | 0 => w
  | n + 1 =>
    shaExtend
      (w ++ [(shaSigma1 (w.getD (w.length - 2) 0) + w.getD (w.length - 7) 0 +
              shaSigma0 (w.getD (w.length - 15) 0) + w.getD (w.length - 16) 0) % 4294967296])
      n

/-- One step of the SHA-256 compression loop on state [a,b,c,d,e,f,g,h]. -/
def shaCompressStep (st : List Nat) (kw : Nat × Nat) : List Nat :=
  let a := st.getD 0 0
  let b := st.getD 1 0
  let c := st.getD 2 0
  let d := st.getD 3 0
  let e := st.getD 4 0
  let f := st.getD 5 0
  let g := st.getD 6 0
  let h := st.getD 7 0
  let ch := (e &&& f) ^^^ ((e ^^^ 4294967295) &&& g)
  let maj := (a &&& b) ^^^ (a &&& c) ^^^ (b &&& c)
  let t1 := (h + shaBigSigma1 e + ch + kw.1 + kw.2) % 4294967296
  let t2 := (shaBigSigma0 a + maj) % 4294967296
  [(t1 + t2) % 4294967296, a, b, c, (d + t1) % 4294967296, e, f, g]

/-- Process one 64-byte block, updating the eight-word hash state. -/
def shaProcessBlock (st : List Nat) (block : Bytes) : List Nat :=
  let w0 := (chunksOf 4 block).map word32OfBytes
  let w := shaExtend w0 48
  let final := (shaK.zip w).foldl shaCompressStep st
  (List.range 8).map (fun i => (st.getD i 0 + final.getD i 0) % 4294967296)

/-- SHA-256 message padding: 0x80, zeros, then the bit length, big-endian. -/
def shaPad (msg : Bytes) : Bytes :=
  msg ++ [0x80] ++ List.replicate ((119 - msg.length % 64) % 64) 0 ++ be64 (msg.length * 8)

/-- SHA-256 digest of a byte string (crypto/sha256 Sum256). -/
def sha256 (msg : Bytes) : Bytes :=
  let st := (chunksOf 64 (shaPad msg)).foldl shaProcessBlock shaH0
  st.foldr (fun w acc => be32 w ++ acc) []

/-! ## AES-256 block cipher (crypto/aes), as used through cipher.NewGCM -/

/-- Multiplication by x in GF(2^8) with the AES reduction polynomial 0x11b. -/
def xtime (b : Nat) : Nat :=
  if b &&& 0x80 = 0 then (b <<< 1) % 256 else ((b <<< 1) ^^^ 0x1b) % 256

/-- Fuelled GF(2^8) product accumulator (Russian-peasant multiplication). -/
def gf8mulAux : Nat → Nat → Nat → Nat
  | 0, _, _ => 0
  | fuel + 1, a, b =>
    (if b &&& 1 = 1 then a else 0) ^^^ gf8mulAux fuel (xtime a) (b >>> 1)

/-- GF(2^8) multiplication of two field elements. -/
def gf8mul (a b : Nat) : Nat := gf8mulAux 8 a b

/-- GF(2^8) inverse as b^254 (square-and-multiply chain); maps 0 to 0. -/
def gf8inv (b : Nat) : Nat :=
  let x2 := gf8mul b b
  let x3 := gf8mul x2 b
  let x6 := gf8mul x3 x3
  let x7 := gf8mul x6 b
  let x14 := gf8mul x7 x7
  let x15 := gf8mul x14 b
  let x30 := gf8mul x15 x15
  let x31 := gf8mul x30 b
  let x62 := gf8mul x31 x31
  let x63 := gf8mul x62 b
  let x126 := gf8mul x63 x63
  let x127 := gf8mul x126 b
  gf8mul x127 x127

/-- Left rotation of a byte. -/
def rotl8 (b n : Nat) : Nat := ((b <<< n) ||| (b >>> (8 - n))) % 256

/-- The AES S-box affine transformation layer. -/
def sboxAffine (b : Nat) : Nat :=
  b ^^^ rotl8 b 1 ^^^ rotl8 b 2 ^^^ rotl8 b 3 ^^^ rotl8 b 4 ^^^ 0x63

/-- The AES S-box: affine map applied to the GF(2^8) inverse. -/
def sbox (b : Nat) : Nat := sboxAffine (gf8inv b)

/-- Apply the S-box to every byte of a 32-bit word. -/
def subWord (w : Nat) : Nat :=
  (sbox ((w >>> 24) % 256) <<< 24) ||| (sbox ((w >>> 16) % 256) <<< 16) |||
    (sbox ((w >>> 8) % 256) <<< 8) ||| sbox (w % 256)

/-- Rotate a 32-bit word left by one byte. -/
def rotWord (w : Nat) : Nat := ((w <<< 8) ||| (w >>> 24)) % 4294967296

/-- AES round-constant word: rcon i has byte 2^(i-1) in GF(2^8) at the top. -/
def rconWord (i : Nat) : Nat :=
  (Nat.rec 1 (fun _ acc => xtime acc) (i - 1) : Nat) <<< 24

/-- Key-expansion step: grow the word schedule until 60 words (AES-256). -/
def expandKeyFrom (w : List Nat) : Nat → List Nat
  | 0 => w
  | n + 1 =>
    let i := w.length
    let temp := w.getD (i - 1) 0
    let temp :=
      if i % 8 = 0 then subWord (rotWord temp) ^^^ rconWord (i / 8)
      else if i % 8 = 4 then subWord temp
      else temp
    expandKeyFrom (w ++ [w.getD (i - 8) 0 ^^^ temp]) n

/-- AES-256 key expansion: 32 key bytes to the 60-word round-key schedule. -/
def keyExpansion (key : Bytes) : List Nat :=
  expandKeyFrom ((chunksOf 4 key).map word32OfBytes) 52

/-- Bytes of round key r, laid out column-major like the AES state. -/
def roundKeyBytes (ws : List Nat) (r : Nat) : Bytes :=
  (List.range 16).map (fun i => (ws.getD (4 * r + i / 4) 0 >>> (8 * (3 - i % 4))) % 256)

/-- AES AddRoundKey: bytewise xor of state and round key. -/
def addRoundKey (s k : Bytes) : Bytes :=
  (List.range 16).map (fun i => s.getD i 0 ^^^ k.getD i 0)

/-- AES SubBytes: S-box substitution on all 16 state bytes. -/
def subBytes (s : Bytes) : Bytes :=
  (List.range 16).map (fun i => sbox (s.getD i 0))

/-- AES ShiftRows on the column-major state: row r rotates left by r. -/
def shiftRows (s : Bytes) : Bytes :=
  (List.range 16).map (fun i => s.getD (i % 4 + 4 * ((i / 4 + i % 4) % 4)) 0)

/-- AES MixColumns on the column-major state. -/
def mixColumns (s : Bytes) : Bytes :=
  (List.range 16).map (fun i =>
    let c := i / 4
    let a0 := s.getD (4 * c) 0
    let a1 := s.getD (4 * c + 1) 0
    let a2 := s.getD (4 * c + 2) 0
    let a3 := s.getD (4 * c + 3) 0
    match i % 4 with
    | 0 => gf8mul 2 a0 ^^^ gf8mul 3 a1 ^^^ a2 ^^^ a3
    | 1 => a0 ^^^ gf8mul 2 a1 ^^^ gf8mul 3 a2 ^^^ a3
    | 2 => a0 ^^^ a1 ^^^ gf8mul 2 a2 ^^^ gf8mul 3 a3
    | _ => gf8mul 3 a0 ^^^ a1 ^^^ a2 ^^^ gf8mul 2 a3)

/-- One middle AES round. -/
def aesRound (ws : List Nat) (s : Bytes) (r : Nat) : Bytes :=
  addRoundKey (mixColumns (shiftRows (subBytes s))) (roundKeyBytes ws r)

/-- AES-256 block encryption: 14 rounds over a 16-byte block. -/
def aesEncryptBlock (key : Bytes) (input : Bytes) : Bytes :=
  let ws := keyExpansion key
  let s0 := addRoundKey input (roundKeyBytes ws 0)
  let smid := (List.range 13).foldl (fun s i => aesRound ws s (i + 1)) s0
  addRoundKey (shiftRows (subBytes smid)) (roundKeyBytes ws 14)

/-! ## AES-GCM (crypto/cipher NewGCM): seal and open with a 12-byte nonce -/

/-- A 16-byte block as a big-endian natural number. -/
def blockToNat (b : Bytes) : Nat := b.foldl (fun acc x => acc * 256 + x) 0

/-- A natural number as a big-endian 16-byte block. -/
def natToBlock (n : Nat) : Bytes :=
  (List.range 16).map (fun i => (n >>> (8 * (15 - i))) % 256)

/-- The GCM reduction constant R = 0xe1 followed by 15 zero bytes. -/
def gcmR : Nat := 0xe1 <<< 120

/-- Fuelled GF(2^128) product: z accumulator, v multiplicand, y multiplier
processed most-significant (GCM bit 0) first. -/
def gmulAux : Nat → Nat → Nat → Nat → Nat
  | 0, z, _, _ => z
  | fuel + 1, z, v, y =>
    let z := if (y >>> 127) &&& 1 = 1 then z ^^^ v else z
    let v := if v &&& 1 = 1 then (v >>> 1) ^^^ gcmR else v >>> 1
    gmulAux fuel z v ((y <<< 1) % 340282366920938463463374607431768211456)

/-- GF(2^128) multiplication in the GCM bit ordering. -/
def gmul (x y : Nat) : Nat := gmulAux 128 0 x y

/-- GHASH over a sequence of 16-byte blocks with hash subkey h. -/
def ghash (h : Nat) (data : Bytes) : Nat :=
  (chunksOf 16 data).foldl (fun y blk => gmul (y ^^^ blockToNat blk) h) 0

/-- Zero-pad a byte string on the right up to a 16-byte boundary. -/
def gcmPad16 (b : Bytes) : Bytes :=
  b ++ List.replicate ((16 - b.length % 16) % 16) 0

/-- GCM 32-bit counter increment on the low word of a block. -/
def inc32 (blk : Nat) : Nat :=
  ((blk >>> 32) <<< 32) ||| ((blk + 1) % 4294967296)

/-- CTR keystream: n blocks starting from the given counter block. -/
def ctrStream (key : Bytes) : Nat → Nat → Bytes
  | _, 0 => []
  | ctr, n + 1 => aesEncryptBlock key (natToBlock ctr) ++ ctrStream key (inc32 ctr) n

/-- GCTR: xor data against the CTR keystream from the given counter. -/
def gctr (key : Bytes) (icb : Nat) (data : Bytes) : Bytes :=
  List.zipWith (· ^^^ ·) data (ctrStream key icb ((data.length + 15) / 16))

/-- GCM authentication tag over a ciphertext (empty additional data). -/
def gcmTag (key : Bytes) (j0 : Nat) (ct : Bytes) : Bytes :=
  let h := blockToNat (aesEncryptBlock key (natToBlock 0))
  let s := ghash h (gcmPad16 ct ++ be64 0 ++ be64 (ct.length * 8))
  List.zipWith (· ^^^ ·) (aesEncryptBlock key (natToBlock j0)) (natToBlock s)

/-- Go gcm.Seal(nonce, nonce, data, nil): nonce, ciphertext, then tag. -/
def gcmSeal (key nonce data : Bytes) : Bytes :=
  let j0 := blockToNat (nonce ++ [0, 0, 0, 1])
  let ct := gctr key (inc32 j0) data
  nonce ++ ct ++ gcmTag key j0 ct

/-- Go gcm.Open(nil, nonce, ciphertext, nil): verify the tag, then decrypt;
on any mismatch fail without returning data. -/
def gcmOpen (key nonce ctAndTag : Bytes) : Except String Bytes :=
  if ctAndTag.length < 16 then .error "message authentication failed"
  else
    let ct := ctAndTag.take (ctAndTag.length - 16)
    let tag := ctAndTag.drop (ctAndTag.length - 16)
    let j0 := blockToNat (nonce ++ [0, 0, 0, 1])
    if tag = gcmTag key j0 ct then .ok (gctr key (inc32 j0) ct)
    else .error "message authentication failed"

/-! ## Standard base64 (encoding/base64 StdEncoding) -/

/-- The standard base64 alphabet. -/
def b64Alphabet : List Char :=
  "ABCDEFGHIJKLMNOPQRSTUVWXYZabcdefghijklmnopqrstuvwxyz0123456789+/".data

/-- Character for a 6-bit group. -/
def b64Char (n : Nat) : Char := b64Alphabet.getD n '?'

/-- Position of a character in a list, or none. -/
def indexFrom : List Char → Nat → Char → Option Nat
  | [], _, _ => none
  | a :: rest, i, c => if a = c then some i else indexFrom rest (i + 1) c

/-- Value of a base64 alphabet character. -/
def b64Index (c : Char) : Option Nat := indexFrom b64Alphabet 0 c

/-- base64 encoding with padding (EncodeToString). -/
def b64EncodeBytes : Bytes → List Char
  | b1 :: b2 :: b3 :: rest =>
    b64Char (b1 / 4) :: b64Char (b1 % 4 * 16 + b2 / 16) ::
      b64Char (b2 % 16 * 4 + b3 / 64) :: b64Char (b3 % 64) :: b64EncodeBytes rest
  | [b1, b2] => [b64Char (b1 / 4), b64Char (b1 % 4 * 16 + b2 / 16), b64Char (b2 % 16 * 4), '=']
  | [b1] => [b64Char (b1 / 4), b64Char (b1 % 4 * 16), '=', '=']
  | [] => []

/-- base64 decoding (DecodeString). Go's decoder rejects characters outside
the alphabet, padding before the end and ragged lengths, but does not check
that the unused trailing bits of the final character are zero, so it also
accepts non-canonical encodings. -/
def b64DecodeBytes : List Char → Except String Bytes
  | [] => .ok []
  | c1 :: c2 :: c3 :: c4 :: rest =>
    match b64Index c1, b64Index c2 with
    | some a1, some a2 =>
      if c3 = '=' then
        if c4 = '=' ∧ rest = [] then .ok [a1 * 4 + a2 / 16]
        else .error "illegal base64 data"
      else
        match b64Index c3 with
        | some a3 =>
          if c4 = '=' then
            if rest = [] then .ok [a1 * 4 + a2 / 16, a2 % 16 * 16 + a3 / 4]
            else .error "illegal base64 data"
          else
            match b64Index c4 with
            | some a4 =>
              (b64DecodeBytes rest).map
                (fun bs => (a1 * 4 + a2 / 16) :: (a2 % 16 * 16 + a3 / 4) :: (a3 % 4 * 64 + a4) :: bs)
            | none => .error "illegal base64 data"
        | none => .error "illegal base64 data"
    | _, _ => .error "illegal base64 data"
  | _ => .error "illegal base64 data"

/-! ## auth/encryption.go -/

/-- Go conversion of a string to its bytes (ASCII fragment of UTF-8). -/
def strBytes (s : String) : Bytes := s.data.map Char.toNat

/-- Go conversion of bytes back to a string (ASCII fragment). -/
def bytesStr (b : Bytes) : String := String.mk (b.map Char.ofNat)

/-- Package-level Encrypt: empty plaintext is returned as the empty string
with no error; otherwise AES-GCM seal with the random nonce prepended, then
base64. The nonce drawn from crypto/rand is an explicit argument. -/
def Encrypt (encryptionKey nonce : Bytes) (plaintext : String) : Except String (List Char) :=
  if plaintext = "" then .ok []
  else .ok (b64EncodeBytes (gcmSeal encryptionKey nonce (strBytes plaintext)))

/-- Package-level Decrypt: empty ciphertext is returned as the empty string
with no error; otherwise base64 decode, split the nonce, AES-GCM open. -/
def Decrypt (encryptionKey : Bytes) (ciphertext : List Char) : Except String String :=
  if ciphertext = [] then .ok ""
  else
    match b64DecodeBytes ciphertext with
    | .error e => .error e
    | .ok data =>
      if data.length < 12 then .error "ciphertext too short"
      else
        match gcmOpen encryptionKey (data.take 12) (data.drop 12) with
        | .error e => .error e
        | .ok pt => .ok (bytesStr pt)

/-- ConfigEncryption carries the master key (SHA-256 of ENCRYPTION_KEY). -/
structure ConfigEncryption where
  masterKey : Bytes

/-- NewConfigEncryption: requires a non-empty ENCRYPTION_KEY and hashes it
to exactly 32 bytes. -/
def newConfigEncryption (envKey : String) : Except String ConfigEncryption :=
  if envKey = "" then .error "ENCRYPTION_KEY environment variable is required"
  else .ok ⟨sha256 (strBytes envKey)⟩

/-- deriveUserKey: SHA-256 of master key, user id and config type joined
with colons, exactly fmt.Sprintf of masterKey:userID:configType. -/
def deriveUserKey (ce : ConfigEncryption) (userID configType : String) : Bytes :=
  sha256 (ce.masterKey ++ strBytes ":" ++ strBytes userID ++ strBytes ":" ++ strBytes configType)

/-- EncryptConfig: AES-256-GCM under the derived per-user key; the nonce is
prepended by Seal and the result base64-encoded for storage. The random
nonce is an explicit argument. -/
def EncryptConfig (ce : ConfigEncryption) (userID configType : String) (data nonce : Bytes) :
    List Char :=
  b64EncodeBytes (gcmSeal (deriveUserKey ce userID configType) nonce data)

/-- DecryptConfig: base64 decode, check the minimum length, split off the
12-byte nonce, then AES-256-GCM open under the derived per-user key. -/
def DecryptConfig (ce : ConfigEncryption) (userID configType : String)
    (encryptedData : List Char) : Except String Bytes :=
  match b64DecodeBytes encryptedData with
  | .error e => .error ("failed to decode base64: " ++ e)
  | .ok ciphertext =>
    if ciphertext.length < 12 then .error "ciphertext too short"
    else
      match gcmOpen (deriveUserKey ce userID configType) (ciphertext.take 12)
          (ciphertext.drop 12) with
      | .error e => .error ("failed to decrypt config: " ++ e)
      | .ok pt => .ok pt

/-! ## ASCII string helpers (strings.ToUpper, TrimSpace, HasPrefix, Contains) -/

/-- ASCII upper-casing of one character (strings.ToUpper on ASCII text). -/
def upperChar (c : Char) : Char :=
  if 'a' ≤ c ∧ c ≤ 'z' then Char.ofNat (c.toNat - 32) else c

/-- ASCII upper-casing of a string. -/
def upperChars (s : List Char) : List Char := s.map upperChar

/-- Characters trimmed by strings.TrimSpace (ASCII whitespace). -/
def isSpaceChar (c : Char) : Bool :=
  c = ' ' ∨ c = '\t' ∨ c = '\n' ∨ c = '\r' ∨ c = Char.ofNat 11 ∨ c = Char.ofNat 12

/-- strings.TrimSpace: drop whitespace from both ends. -/
def trimChars (s : List Char) : List Char :=
  ((s.dropWhile isSpaceChar).reverse.dropWhile isSpaceChar).reverse

/-- strings.HasPrefix as a list predicate: the first list leads the second. -/
def leadsList : List Char → List Char → Bool
  | [], _ => true
  | _ :: _, [] => false
  | p :: ps, c :: cs => p = c && leadsList ps cs

/-- strings.Contains: some suffix of s starts with pat. -/
def containsStr : List Char → List Char → Bool
  | [], pat => pat.isEmpty
  | c :: rest, pat => leadsList pat (c :: rest) || containsStr rest pat

/-! ## handlers/sql_playground.go -/

/-- The denylist exactly as written in isDangerousQuery: every entry except
CREATE USER and DROP USER carries a trailing space. -/
def dangerousKeywords : List (List Char) :=
  ["DROP ".data, "DELETE ".data, "TRUNCATE ".data, "ALTER ".data, "CREATE USER".data,
   "DROP USER".data, "GRANT ".data, "REVOKE ".data, "INSERT ".data, "UPDATE ".data,
   "COPY ".data]

/-- isDangerousQuery: substring scan of the trimmed, upper-cased SQL against
the denylist. -/
def isDangerousQuery (sql : List Char) : Bool :=
  dangerousKeywords.any (fun k => containsStr (upperChars (trimChars sql)) k)

/-- Outcome of the ExecuteQuery handler checks that run before any database
work: empty-SQL rejection, then the dangerous-query rejection, and only then
the call to GetUserDatabaseConnection. -/
inductive ExecOutcome where
  | missingSQL
  | validationError
  | connectionStage
deriving DecidableEq

/-- The ExecuteQuery request gate, in source order: the dangerous-query check
runs strictly before GetUserDatabaseConnection is consulted. -/
def executeQueryGate (sql : List Char) : ExecOutcome :=
  if sql.isEmpty then .missingSQL
  else if isDangerousQuery sql then .validationError
  else .connectionStage

/-- Query options; ints are Go ints. -/
structure QueryOptions where
  limit : Int
  timeout : Int
  explainPlan : Bool
  dryRun : Bool

/-- ExecuteQuery defaulting: a zero limit becomes 1000, a zero timeout 30. -/
def applyDefaultOptions (o : QueryOptions) : QueryOptions :=
  { o with
    limit := if o.limit = 0 then 1000 else o.limit,
    timeout := if o.timeout = 0 then 30 else o.timeout }

/-- The SQL text executeSQL actually sends: trim, optionally wrap in EXPLAIN,
then append a LIMIT when the text starts with SELECT and does not contain
the substring LIMIT anywhere (both checks on the upper-cased text). -/
def buildExecutedSQL (sql : List Char) (opts : QueryOptions) : List Char :=
  let s := trimChars sql
  let s := if opts.explainPlan then "EXPLAIN (FORMAT JSON, ANALYZE true) ".data ++ s else s
  if leadsList "SELECT".data (upperChars s) && !containsStr (upperChars s) "LIMIT".data then
    s ++ " LIMIT ".data ++ (toString opts.limit).data
  else s

/-- Go slices distinguish nil from empty; encoding/json renders nil as null. -/
def GoSlice (α : Type) : Type := Option (List α)

/-- The nil slice. -/
def goNil : GoSlice α := none

/-- Go append: a nil slice becomes non-nil on first append. -/
def goAppend (s : GoSlice α) (x : α) : GoSlice α := some (s.getD [] ++ [x])

/-- Elements of a Go slice. -/
def goElems (s : GoSlice α) : List α := s.getD []

/-- A slice built by appending every element of a list to nil, the way the
row-scanning loops build their result slices. -/
def goCollect (l : List α) : GoSlice α := l.foldl goAppend goNil

/-- Minimal JSON value model for response shapes. -/
inductive Json where
  | null
  | bool (b : Bool)
  | num (n : Int)
  | str (s : String)
  | arr (elems : List Json)
  | obj (fields : List (String × Json))

/-- encoding/json marshalling of a slice: nil to null, else an array. -/
def jsonOfGoSlice (f : α → Json) (s : GoSlice α) : Json :=
  match s with
  | none => Json.null
  | some xs => Json.arr (xs.map f)

/-- QueryResult as shaped by parseQueryResult. -/
structure QueryResult (α : Type) where
  columns : List String
  rows : GoSlice (List α)
  rowCount : Int
  executionTime : Int

/-- parseQueryResult: collect the fetched rows in order; RowCount is the
number of rows collected (int64(len(data))), nothing else. -/
def parseQueryResult (α : Type) (cols : List String) (fetched : List (List α)) :
    QueryResult α :=
  let data := fetched.foldl goAppend goNil
  { columns := cols
    rows := data
    rowCount := Int.ofNat (goElems data).length
    executionTime := 0 }

/-- One row of the tables catalog query. -/
structure TableRow where
  name : String
  schemaName : String
  rowCount : Int

/-- One row of the views catalog query. -/
structure ViewRow where
  name : String
  schemaName : String
  definition : String

/-- Column description from getTableColumns. -/
structure ColumnInfo where
  name : String
  typeName : String
  nullable : Bool
  defaultValue : String
  isPrimaryKey : Bool
  isForeignKey : Bool

/-- TableInfo as built by the schema loop. -/
structure TableInfo where
  name : String
  schemaName : String
  columns : GoSlice ColumnInfo
  rowCount : Int

/-- ViewInfo as built by the schema loop. -/
structure ViewInfo where
  name : String
  schemaName : String
  definition : String
  columns : GoSlice ColumnInfo

/-- SchemaInfo: both fields start as nil slices in &SchemaInfo{}. -/
structure SchemaInfo where
  tables : GoSlice TableInfo
  views : GoSlice ViewInfo

/-- getDatabaseSchema over the catalog query outcomes: a tables-query error
fails the call; each table row is appended (columns kept nil if the column
query errs); a views-query error is silently skipped. -/
def getDatabaseSchema (tablesQ : Except String (List TableRow))
    (viewsQ : Except String (List ViewRow))
    (colsFor : String → String → Except String (List ColumnInfo)) :
    Except String SchemaInfo :=
  match tablesQ with
  | .error e => .error ("failed to get tables: " ++ e)
  | .ok trows =>
    let tables := trows.foldl
      (fun acc r =>
        goAppend acc
          { name := r.name
            schemaName := r.schemaName
            rowCount := r.rowCount
            columns :=
              match colsFor r.schemaName r.name with
              | .ok cs => goCollect cs
              | .error _ => goNil })
      goNil
    let views :=
      match viewsQ with
      | .error _ => goNil
      | .ok vrows =>
        vrows.foldl
          (fun acc r =>
            goAppend acc
              { name := r.name
                schemaName := r.schemaName
                definition := r.definition
                columns :=
                  match colsFor r.schemaName r.name with
                  | .ok cs => goCollect cs
                  | .error _ => goNil })
          goNil
    .ok { tables := tables, views := views }

/-- JSON rendering of a column. -/
def jsonOfColumn (c : ColumnInfo) : Json :=
  Json.obj [("name", Json.str c.name), ("type", Json.str c.typeName),
    ("nullable", Json.bool c.nullable), ("default_value", Json.str c.defaultValue),
    ("is_primary_key", Json.bool c.isPrimaryKey), ("is_foreign_key", Json.bool c.isForeignKey)]

/-- JSON rendering of a table. -/
def jsonOfTable (t : TableInfo) : Json :=
  Json.obj [("name", Json.str t.name), ("schema", Json.str t.schemaName),
    ("columns", jsonOfGoSlice jsonOfColumn t.columns), ("row_count", Json.num t.rowCount)]

/-- JSON rendering of a view. -/
def jsonOfView (v : ViewInfo) : Json :=
  Json.obj [("name", Json.str v.name), ("schema", Json.str v.schemaName),
    ("definition", Json.str v.definition),
    ("columns", jsonOfGoSlice jsonOfColumn v.columns)]

/-- JSON rendering of the schema response: nil slices marshal to null. -/
def jsonOfSchema (s : SchemaInfo) : Json :=
  Json.obj [("tables", jsonOfGoSlice jsonOfTable s.tables),
    ("views", jsonOfGoSlice jsonOfView s.views)]

/-! ## handlers/database_config.go: GetUserDatabaseConnection under races

The handler guards its userDBPools map with a sync.RWMutex, but only the
cache lookup and the cache insert each hold the lock: the construction in
between runs outside any per-user lock. The interleaving model below gives
one atomic step to each locked region and one to the unlocked construction,
for several threads calling GetUserDatabaseConnection for the same user. -/

/-- Shared broker state for a single user id: the cached pool entry, a
fresh-pool counter, and the list of pools constructed so far. -/
structure BrokerState where
  cache : Option Nat
  nextPool : Nat
  builtPools : List Nat
deriving DecidableEq

/-- Program counter of one thread inside GetUserDatabaseConnection. -/
inductive ThreadPC where
  | checkCache
  | insert (p : Nat)
  | finished (p : Nat)
deriving DecidableEq

/-- One step of a single thread: the read-locked cache check (lines 526-531,
with a hit returning at once and a miss falling through to the unlocked
config load and createUserConnection, which allocates a fresh pool), or the
write-locked insert (lines 546-551). Construction is assumed to succeed. -/
def threadStep (g : BrokerState) : ThreadPC → BrokerState × ThreadPC
  | .checkCache =>
    match g.cache with
    | some p => (g, .finished p)
    | none =>
      let p := g.nextPool
      ({ g with nextPool := p + 1, builtPools := g.builtPools ++ [p] }, .insert p)
  | .insert p => ({ g with cache := some p }, .finished p)
  | .finished p => (g, .finished p)

/-- System state: shared broker state plus every thread's program counter. -/
structure RaceState where
  global : BrokerState
  threads : List ThreadPC
deriving DecidableEq

/-- Run the thread picked by the schedule entry, then the rest. -/
def runSchedule : RaceState → List Nat → RaceState
  | s, [] => s
  | s, i :: rest =>
    match s.threads.getD i (.finished 0), threadStep s.global (s.threads.getD i (.finished 0)) with
    | _, (g, pc) => runSchedule { global := g, threads := s.threads.set i pc } rest

/-- Cold-cache start state for n concurrent callers. -/
def coldStart (n : Nat) : RaceState :=
  { global := { cache := none, nextPool := 0, builtPools := [] }
    threads := List.replicate n .checkCache }

/-- The pool reference thread i ends up returning. -/
def resultOf (s : RaceState) (i : Nat) : Option Nat :=
  match s.threads.getD i (.checkCache) with
  | .finished p => some p
  | _ => none

/-! ## handlers/database_config.go: createUserConnection resource handling -/

/-- Connection type tag of a stored configuration. -/
inductive ConnType where
  | postgresql
  | ssh
  | wireguard
  | other
deriving DecidableEq, Fintype

/-- Shape of the DatabaseConfig value handed to createUserConnection:
which optional sub-configs are present and whether the WireGuard internal
URL is non-empty. -/
structure ConnConfig where
  connectionType : ConnType
  sshPresent : Bool
  wgPresent : Bool
  wgURLNonEmpty : Bool
deriving DecidableEq, Fintype

/-- Success or failure of each external step of createUserConnection:
database.NewSSHTunnel, pgxpool.ParseConfig on the original URL (ssh branch),
pgxpool.ParseConfig on the effective URL, pgxpool.NewWithConfig, pool.Ping. -/
structure ConnOracles where
  tunnelOk : Bool
  parseOrigOk : Bool
  parseOk : Bool
  poolOk : Bool
  pingOk : Bool
deriving DecidableEq, Fintype

/-- Result and resource ledger of one createUserConnection call: whether a
tunnel or pool was constructed and whether each was closed again. On ok the
Bool payload records whether a tunnel is returned alongside the pool. -/
structure ConnAttempt where
  result : Except String Bool
  tunnelBuilt : Bool
  tunnelClosed : Bool
  poolBuilt : Bool
  poolClosed : Bool

/-- The shared tail of createUserConnection from pgxpool.ParseConfig on: on
each failure it closes the tunnel if one was built, a ping failure also
closes the just-built pool, and only a pinged pool is returned. -/
def buildPoolPhase (haveTunnel : Bool) (o : ConnOracles) : ConnAttempt :=
  if !o.parseOk then
    ⟨.error "failed to parse database URL", haveTunnel, haveTunnel, false, false⟩
  else if !o.poolOk then
    ⟨.error "failed to create connection pool", haveTunnel, haveTunnel, false, false⟩
  else if !o.pingOk then
    ⟨.error "failed to ping database", haveTunnel, haveTunnel, true, true⟩
  else ⟨.ok haveTunnel, haveTunnel, false, true, false⟩

/-- createUserConnection (lines 696-800): branch on connection type, build
the tunnel for ssh (closing it again if the original URL fails to parse),
then the shared pool phase. -/
def createUserConnection (cfg : ConnConfig) (o : ConnOracles) : ConnAttempt :=
  match cfg.connectionType with
  | .postgresql => buildPoolPhase false o
  | .ssh =>
    if !cfg.sshPresent then
      ⟨.error "SSH configuration is required for SSH connection type", false, false, false, false⟩
    else if !o.tunnelOk then
      ⟨.error "failed to create SSH tunnel", false, false, false, false⟩
    else if !o.parseOrigOk then
      ⟨.error "failed to parse original database URL", true, true, false, false⟩
    else buildPoolPhase true o
  | .wireguard =>
    if !cfg.wgPresent then
      ⟨.error "WireGuard configuration is required for WireGuard connection type",
        false, false, false, false⟩
    else if !cfg.wgURLNonEmpty then
      ⟨.error "internal database URL is required for WireGuard connection",
        false, false, false, false⟩
    else buildPoolPhase false o
  | .other => ⟨.error "unsupported connection type", false, false, false, false⟩

/-- The per-user entries of the two broker caches. -/
structure ConnCaches where
  poolFor : Option Nat
  tunnelFor : Option Nat
deriving DecidableEq

/-- GetUserDatabaseConnection for one user, sequential view: return the
cached pool if present; otherwise load the config and build; on any error
return it and leave both caches untouched; on success cache the new pool
and, if one was built, the new tunnel. -/
def getUserDatabaseConnection (c : ConnCaches) (configFound : Bool) (cfg : ConnConfig)
    (o : ConnOracles) : Except String Nat × ConnCaches :=
  match c.poolFor with
  | some p => (.ok p, c)
  | none =>
    if !configFound then (.error "failed to get user database config", c)
    else
      match (createUserConnection cfg o).result with
      | .error e => (.error ("failed to create user database connection: " ++ e), c)
      | .ok tun =>
        (.ok 0, { poolFor := some 0, tunnelFor := if tun then some 0 else c.tunnelFor })

/-! ## handlers/database_config.go: CreateDatabaseConfig switching -/

/-- Per-user configuration database state: the users row holds the single
active_connection_type pointer, and each config table holds at most one row
per user carrying an is_active flag and the stored (encrypted) payload. -/
structure ConfigDB where
  activeConnectionType : Option ConnType
  dbCfg : Option (Bool × Nat)
  sshCfg : Option (Bool × Nat)
  wgCfg : Option (Bool × Nat)
deriving DecidableEq

/-- The row of a config table for a given connection type. -/
def rowOf (s : ConfigDB) : ConnType → Option (Bool × Nat)
  | .postgresql => s.dbCfg
  | .ssh => s.sshCfg
  | .wireguard => s.wgCfg
  | .other => none

/-- CreateDatabaseConfig, DB effects of the committed transaction: upsert
the addressed config table row with is_active = true and the new payload,
and point users.active_connection_type at the new type. The transaction
commits atomically, so this is a single state transition. The rows of the
other config tables are not touched: nothing resets a previous variant's
is_active flag. -/
def createDatabaseConfigStep (s : ConfigDB) (ct : ConnType) (payload : Nat) : ConfigDB :=
  match ct with
  | .postgresql => { s with dbCfg := some (true, payload), activeConnectionType := some ct }
  | .ssh => { s with sshCfg := some (true, payload), activeConnectionType := some ct }
  | .wireguard => { s with wgCfg := some (true, payload), activeConnectionType := some ct }
  | .other => s

/-- getUserDatabaseConfig: read active_connection_type from the users row,
then load that variant's row, requiring is_active = true. -/
def getUserDatabaseConfig (s : ConfigDB) : Except String (ConnType × Nat) :=
  match s.activeConnectionType with
  | none => .error "no active connection configured"
  | some ct =>
    match rowOf s ct with
    | some (true, payload) => .ok (ct, payload)
    | _ => .error "configuration not found"

/-- Number of config-table rows flagged active for the user. -/
def activeFlagCount (s : ConfigDB) : Nat :=
  (if (s.dbCfg.map Prod.fst).getD false then 1 else 0) +
    (if (s.sshCfg.map Prod.fst).getD false then 1 else 0) +
    (if (s.wgCfg.map Prod.fst).getD false then 1 else 0)

/-- The empty configuration state of a fresh user. -/
def emptyConfigDB : ConfigDB :=
  { activeConnectionType := none, dbCfg := none, sshCfg := none, wgCfg := none }

/-! # Theorems -/

set_option maxRecDepth 100000

/-! ## Helper lemmas -/

theorem xor_lt_256 {a b : Nat} (ha : a < 256) (hb : b < 256) : a ^^^ b < 256 := by
  have h := Nat.xor_lt_two_pow (n := 8) ha hb
  simpa using h

theorem bytesOk_getD {l : Bytes} (h : bytesOk l) (i : Nat) : l.getD i 0 < 256 := by
  rcases Nat.lt_or_ge i l.length with hi | hi
  · rw [List.getD_eq_getElem?_getD, List.getElem?_eq_getElem hi]
    exact h _ (List.getElem_mem hi)
  · rw [List.getD_eq_default l 0 hi]; omega

theorem bytesOk_append {l1 l2 : Bytes} (h1 : bytesOk l1) (h2 : bytesOk l2) :
    bytesOk (l1 ++ l2) := by
  intro b hb
  rcases List.mem_append.mp hb with hb | hb
  · exact h1 b hb
  · exact h2 b hb

theorem xtime_lt (b : Nat) : xtime b < 256 := by
  unfold xtime
  split <;> exact Nat.mod_lt _ (by omega)

theorem gf8mulAux_lt (fuel b : Nat) {a : Nat} (ha : a < 256) : gf8mulAux fuel a b < 256 := by
  induction fuel generalizing a b with
  | zero => simp [gf8mulAux]
  | succ n ih =>
    unfold gf8mulAux
    refine xor_lt_256 ?_ (ih _ (xtime_lt a))
    split <;> omega

theorem gf8mul_lt {a : Nat} (b : Nat) (ha : a < 256) : gf8mul a b < 256 :=
  gf8mulAux_lt 8 b ha

theorem gf8inv_lt {b : Nat} (hb : b < 256) : gf8inv b < 256 := by
  unfold gf8inv
  exact gf8mul_lt _ (gf8mul_lt _ (gf8mul_lt _ (gf8mul_lt _ (gf8mul_lt _ (gf8mul_lt _
    (gf8mul_lt _ (gf8mul_lt _ (gf8mul_lt _ (gf8mul_lt _ (gf8mul_lt _ (gf8mul_lt _
      (gf8mul_lt _ hb))))))))))))

theorem rotl8_lt (b n : Nat) : rotl8 b n < 256 := Nat.mod_lt _ (by omega)

theorem sbox_lt {b : Nat} (hb : b < 256) : sbox b < 256 := by
  unfold sbox sboxAffine
  exact xor_lt_256 (xor_lt_256 (xor_lt_256 (xor_lt_256 (xor_lt_256 (gf8inv_lt hb)
    (rotl8_lt _ _)) (rotl8_lt _ _)) (rotl8_lt _ _)) (rotl8_lt _ _)) (by omega)

theorem bytesOk_range16_mod256 (f : Nat → Nat) :
    bytesOk ((List.range 16).map (fun i => f i % 256)) := by
  intro b hb
  obtain ⟨i, _, rfl⟩ := List.mem_map.mp hb
  exact Nat.mod_lt _ (by omega)

theorem bytesOk_natToBlock (n : Nat) : bytesOk (natToBlock n) :=
  bytesOk_range16_mod256 _

theorem bytesOk_roundKeyBytes (ws : List Nat) (r : Nat) : bytesOk (roundKeyBytes ws r) :=
  bytesOk_range16_mod256 _

theorem bytesOk_addRoundKey {s : Bytes} (hs : bytesOk s) (k : List Nat) (r : Nat) :
    bytesOk (addRoundKey s (roundKeyBytes k r)) := by
  intro b hb
  obtain ⟨i, _, rfl⟩ := List.mem_map.mp hb
  exact xor_lt_256 (bytesOk_getD hs i) (bytesOk_getD (bytesOk_roundKeyBytes k r) i)

theorem bytesOk_subBytes {s : Bytes} (hs : bytesOk s) : bytesOk (subBytes s) := by
  intro b hb
  obtain ⟨i, _, rfl⟩ := List.mem_map.mp hb
  exact sbox_lt (bytesOk_getD hs i)

theorem bytesOk_shiftRows {s : Bytes} (hs : bytesOk s) : bytesOk (shiftRows s) := by
  intro b hb
  obtain ⟨i, _, rfl⟩ := List.mem_map.mp hb
  exact bytesOk_getD hs _

theorem bytesOk_mixColumns {s : Bytes} (hs : bytesOk s) : bytesOk (mixColumns s) := by
  intro b hb
  obtain ⟨i, _, rfl⟩ := List.mem_map.mp hb
  rcases hm : i % 4 with _ | _ | _ | m <;> simp only [hm]
  · exact xor_lt_256 (xor_lt_256 (xor_lt_256 (gf8mul_lt _ (by omega))
      (gf8mul_lt _ (by omega))) (bytesOk_getD hs _)) (bytesOk_getD hs _)
  · exact xor_lt_256 (xor_lt_256 (xor_lt_256 (bytesOk_getD hs _)
      (gf8mul_lt _ (by omega))) (gf8mul_lt _ (by omega))) (bytesOk_getD hs _)
  · exact xor_lt_256 (xor_lt_256 (xor_lt_256 (bytesOk_getD hs _)
      (bytesOk_getD hs _)) (gf8mul_lt _ (by omega))) (gf8mul_lt _ (by omega))
  · rcases m with _ | m
    · exact xor_lt_256 (xor_lt_256 (xor_lt_256 (gf8mul_lt _ (by omega))
        (bytesOk_getD hs _)) (bytesOk_getD hs _)) (gf8mul_lt _ (by omega))
    · omega

theorem bytesOk_aesRound {s : Bytes} (hs : bytesOk s) (ws : List Nat) (r : Nat) :
    bytesOk (aesRound ws s r) :=
  bytesOk_addRoundKey (bytesOk_mixColumns (bytesOk_shiftRows (bytesOk_subBytes hs))) ws r

theorem bytesOk_aesRounds (l : List Nat) (ws : List Nat) {s : Bytes} (hs : bytesOk s) :
    bytesOk (l.foldl (fun st i => aesRound ws st (i + 1)) s) := by
  induction l generalizing s with
  | nil => exact hs
  | cons x xs ih => exact ih (bytesOk_aesRound hs ws (x + 1))

theorem bytesOk_aesEncryptBlock {input : Bytes} (hin : bytesOk input) (key : Bytes) :
    bytesOk (aesEncryptBlock key input) := by
  unfold aesEncryptBlock
  exact bytesOk_addRoundKey
    (bytesOk_shiftRows (bytesOk_subBytes (bytesOk_aesRounds _ _ (bytesOk_addRoundKey hin _ _))))
    _ _

theorem bytesOk_ctrStream (key : Bytes) (ctr n : Nat) : bytesOk (ctrStream key ctr n) := by
  induction n generalizing ctr with
  | zero => intro b hb; cases hb
  | succ m ih =>
    exact bytesOk_append (bytesOk_aesEncryptBlock (bytesOk_natToBlock ctr) key) (ih _)

theorem bytesOk_zipWith_xor {d ks : Bytes} (hd : bytesOk d) (hk : bytesOk ks) :
    bytesOk (List.zipWith (· ^^^ ·) d ks) := by
  induction d generalizing ks with
  | nil => intro b hb; cases hb
  | cons x xs ih =>
    cases ks with
    | nil => intro b hb; cases hb
    | cons k kk =>
      intro b hb
      rcases List.mem_cons.mp hb with hb | hb
      · subst hb
        exact xor_lt_256 (hd x (List.mem_cons_self x xs)) (hk k (List.mem_cons_self k kk))
      · exact ih (fun c hc => hd c (List.mem_cons_of_mem _ hc))
          (fun c hc => hk c (List.mem_cons_of_mem _ hc)) b hb

theorem bytesOk_gctr (key : Bytes) (icb : Nat) {data : Bytes} (hd : bytesOk data) :
    bytesOk (gctr key icb data) :=
  bytesOk_zipWith_xor hd (bytesOk_ctrStream key icb _)

theorem bytesOk_gcmTag (key : Bytes) (j0 : Nat) (ct : Bytes) : bytesOk (gcmTag key j0 ct) :=
  bytesOk_zipWith_xor (bytesOk_aesEncryptBlock (bytesOk_natToBlock j0) key)
    (bytesOk_natToBlock _)

theorem bytesOk_gcmSeal {key nonce data : Bytes} (hn : bytesOk nonce) (hd : bytesOk data) :
    bytesOk (gcmSeal key nonce data) := by
  unfold gcmSeal
  exact bytesOk_append (bytesOk_append hn (bytesOk_gctr _ _ hd)) (bytesOk_gcmTag _ _ _)

theorem length_natToBlock (n : Nat) : (natToBlock n).length = 16 := by
  simp [natToBlock]

theorem length_addRoundKey (s k : Bytes) : (addRoundKey s k).length = 16 := by
  simp [addRoundKey]

theorem length_aesEncryptBlock (key input : Bytes) : (aesEncryptBlock key input).length = 16 := by
  unfold aesEncryptBlock
  exact length_addRoundKey _ _

theorem length_ctrStream (key : Bytes) (ctr n : Nat) :
    (ctrStream key ctr n).length = 16 * n := by
  induction n generalizing ctr with
  | zero => rfl
  | succ m ih =>
    unfold ctrStream
    rw [List.length_append, length_aesEncryptBlock, ih]
    omega

theorem length_gctr (key : Bytes) (icb : Nat) (data : Bytes) :
    (gctr key icb data).length = data.length := by
  unfold gctr
  rw [List.length_zipWith, length_ctrStream]
  omega

theorem length_gcmTag (key : Bytes) (j0 : Nat) (ct : Bytes) :
    (gcmTag key j0 ct).length = 16 := by
  unfold gcmTag
  rw [List.length_zipWith, length_aesEncryptBlock, length_natToBlock]
  omega

theorem zipWith_xor_cancel {d ks : Bytes} (h : d.length ≤ ks.length) :
    List.zipWith (· ^^^ ·) (List.zipWith (· ^^^ ·) d ks) ks = d := by
  induction d generalizing ks with
  | nil => simp
  | cons x xs ih =>
    cases ks with
    | nil => simp at h
    | cons k kk =>
      simp only [List.zipWith_cons_cons, List.cons.injEq]
      exact ⟨Nat.xor_cancel_right k x, ih (by simpa using h)⟩

theorem b64Index_b64Char_fin : ∀ n : Fin 64, b64Index (b64Char n.val) = some n.val := by decide

theorem b64Index_b64Char {n : Nat} (h : n < 64) : b64Index (b64Char n) = some n :=
  b64Index_b64Char_fin ⟨n, h⟩

theorem b64Char_ne_pad_fin : ∀ n : Fin 64, b64Char n.val ≠ '=' := by decide

theorem b64Char_ne_pad {n : Nat} (h : n < 64) : b64Char n ≠ '=' :=
  b64Char_ne_pad_fin ⟨n, h⟩

theorem b64_roundtrip (bs : Bytes) (h : bytesOk bs) :
    b64DecodeBytes (b64EncodeBytes bs) = .ok bs := by
  induction bs using b64EncodeBytes.induct with
  | case1 b1 b2 b3 rest ih =>
    have hb1 : b1 < 256 := h _ (by simp)
    have hb2 : b2 < 256 := h _ (by simp)
    have hb3 : b3 < 256 := h _ (by simp)
    have hrest : bytesOk rest := fun c hc => h c (by simp [hc])
    have h1 := b64Index_b64Char (n := b1 / 4) (by omega)
    have h2 := b64Index_b64Char (n := b1 % 4 * 16 + b2 / 16) (by omega)
    have h3 := b64Index_b64Char (n := b2 % 16 * 4 + b3 / 64) (by omega)
    have h4 := b64Index_b64Char (n := b3 % 64) (by omega)
    have n3 := b64Char_ne_pad (n := b2 % 16 * 4 + b3 / 64) (by omega)
    have n4 := b64Char_ne_pad (n := b3 % 64) (by omega)
    rw [b64EncodeBytes]
    simp only [b64DecodeBytes, h1, h2, h3, h4, n3, n4, if_neg, ih hrest, Except.map]
    have e1 : b1 / 4 * 4 + (b1 % 4 * 16 + b2 / 16) / 16 = b1 := by omega
    have e2 : (b1 % 4 * 16 + b2 / 16) % 16 * 16 + (b2 % 16 * 4 + b3 / 64) / 4 = b2 := by omega
    have e3 : (b2 % 16 * 4 + b3 / 64) % 4 * 64 + b3 % 64 = b3 := by omega
    simp [e1, e2, e3]
  | case2 b1 b2 =>
    have hb1 : b1 < 256 := h _ (by simp)
    have hb2 : b2 < 256 := h _ (by simp)
    have h1 := b64Index_b64Char (n := b1 / 4) (by omega)
    have h2 := b64Index_b64Char (n := b1 % 4 * 16 + b2 / 16) (by omega)
    have h3 := b64Index_b64Char (n := b2 % 16 * 4) (by omega)
    have n3 := b64Char_ne_pad (n := b2 % 16 * 4) (by omega)
    rw [b64EncodeBytes]
    simp only [b64DecodeBytes, h1, h2, h3, n3, if_neg]
    have e1 : b1 / 4 * 4 + (b1 % 4 * 16 + b2 / 16) / 16 = b1 := by omega
    simp [e1]
    omega
  | case3 b1 =>
    have hb1 : b1 < 256 := h _ (by simp)
    have h1 := b64Index_b64Char (n := b1 / 4) (by omega)
    have h2 := b64Index_b64Char (n := b1 % 4 * 16) (by omega)
    rw [b64EncodeBytes]
    simp only [b64DecodeBytes, h1, h2]
    simp
    omega
  | case4 => rfl

theorem length_gcmSeal (key : Bytes) {nonce : Bytes} (data : Bytes) (hn : nonce.length = 12) :
    (gcmSeal key nonce data).length = 28 + data.length := by
  unfold gcmSeal
  rw [List.length_append, List.length_append, hn, length_gctr, length_gcmTag]
  omega

theorem set_append_right (l1 l2 : List Nat) (i : Nat) (v : Nat) :
    (l1 ++ l2).set (l1.length + i) v = l1 ++ l2.set i v := by
  induction l1 with
  | nil => simp
  | cons x xs ih =>
    have hidx : (x :: xs).length + i = (xs.length + i) + 1 := by
      simp; omega
    rw [hidx]
    show x :: (xs ++ l2).set (xs.length + i) v = x :: (xs ++ l2.set i v)
    rw [ih]

theorem getD_append_right (l1 l2 : List Nat) (i : Nat) :
    (l1 ++ l2).getD (l1.length + i) 0 = l2.getD i 0 := by
  induction l1 with
  | nil => simp
  | cons x xs ih =>
    have hidx : (x :: xs).length + i = (xs.length + i) + 1 := by
      simp; omega
    rw [hidx]
    show (xs ++ l2).getD (xs.length + i) 0 = l2.getD i 0
    exact ih

theorem bytesOk_set {l : Bytes} (h : bytesOk l) {v : Nat} (hv : v < 256) (i : Nat) :
    bytesOk (l.set i v) := by
  intro b hb
  rcases List.mem_or_eq_of_mem_set hb with hb | rfl
  · exact h b hb
  · exact hv

theorem set_ne_of_elem_ne {l : Bytes} {i v : Nat} (hi : i < l.length)
    (hv : v ≠ l.getD i 0) : l.set i v ≠ l := by
  intro heq
  apply hv
  have hilt : i < (l.set i v).length := by simpa
  have h4 : (l.set i v).getD i 0 = v := by
    rw [List.getD_eq_getElem?_getD, List.getElem?_eq_getElem hilt]
    simp only [Option.getD_some]
    exact List.getElem_set_self hilt
  rw [heq] at h4
  exact h4.symm

theorem gctr_invol (key : Bytes) (icb : Nat) (data : Bytes) :
    gctr key icb (gctr key icb data) = data := by
  unfold gctr
  have hlen : (List.zipWith (· ^^^ ·) data
      (ctrStream key icb ((data.length + 15) / 16))).length = data.length := by
    rw [List.length_zipWith, length_ctrStream]; omega
  rw [hlen]
  exact zipWith_xor_cancel (by rw [length_ctrStream]; omega)

theorem gcmOpen_of_seal_parts (key : Bytes) {nonce : Bytes} (data : Bytes)
    (hn : nonce.length = 12) :
    gcmOpen key nonce ((gcmSeal key nonce data).drop 12) = .ok data := by
  unfold gcmSeal
  rw [List.append_assoc, List.drop_left' hn]
  unfold gcmOpen
  have hct : (gctr key (inc32 (blockToNat (nonce ++ [0, 0, 0, 1]))) data).length =
      data.length := length_gctr _ _ _
  rw [if_neg (by rw [List.length_append, hct, length_gcmTag]; omega)]
  have hsplit : (gctr key (inc32 (blockToNat (nonce ++ [0, 0, 0, 1]))) data ++
      gcmTag key (blockToNat (nonce ++ [0, 0, 0, 1]))
        (gctr key (inc32 (blockToNat (nonce ++ [0, 0, 0, 1]))) data)).length - 16 =
      (gctr key (inc32 (blockToNat (nonce ++ [0, 0, 0, 1]))) data).length := by
    rw [List.length_append, length_gcmTag]; omega
  rw [hsplit, List.take_left, List.drop_left, if_pos rfl]
  exact congrArg Except.ok (gctr_invol _ _ _)

/-! ## C3: decrypt inverts encrypt -/

/-- C3: for every master key, user id, config type, byte-string plaintext
and fresh 12-byte nonce, DecryptConfig applied to the stored output of
EncryptConfig succeeds and returns exactly the original plaintext. -/
theorem C3_decrypt_encrypt_roundtrip (ce : ConfigEncryption) (userID configType : String)
    (data nonce : Bytes) (hn : nonce.length = 12) (hnv : bytesOk nonce) (hd : bytesOk data) :
    DecryptConfig ce userID configType (EncryptConfig ce userID configType data nonce) =
      .ok data := by
  unfold EncryptConfig DecryptConfig
  simp only [b64_roundtrip _ (bytesOk_gcmSeal hnv hd)]
  rw [if_neg (by rw [length_gcmSeal _ _ hn]; omega)]
  have htake : (gcmSeal (deriveUserKey ce userID configType) nonce data).take 12 = nonce := by
    unfold gcmSeal
    rw [List.append_assoc]
    exact List.take_left' hn
  rw [htake, gcmOpen_of_seal_parts _ _ hn]

/-- C3 witness: a concrete three-byte plaintext round-trips. -/
theorem C3_decrypt_encrypt_roundtrip_witness :
    ((List.replicate 12 7 : Bytes).length = 12) ∧ bytesOk (List.replicate 12 7) ∧
    bytesOk [1, 2, 3] ∧
    DecryptConfig ⟨List.range 32⟩ "u1" "postgresql"
        (EncryptConfig ⟨List.range 32⟩ "u1" "postgresql" [1, 2, 3] (List.replicate 12 7)) =
      .ok [1, 2, 3] :=
  ⟨by decide, by decide, by decide,
    C3_decrypt_encrypt_roundtrip _ _ _ _ _ (by decide) (by decide) (by decide)⟩

/-! ## C4: tamper detection -/

set_option maxHeartbeats 4000000 in
/-- C4 counterexample: a single-byte change of the stored ciphertext that is
NOT detected. The stored base64 string of an encrypted empty config ends in
aQ==; replacing that Q (value 16) by R (value 17) changes only unused
trailing bits of the final base64 group, which Go's decoder does not check,
so DecryptConfig succeeds on the altered string and returns the original
plaintext instead of a decryption error. -/
theorem C4_counterexample :
    EncryptConfig ⟨List.range 32⟩ "user-1" "postgresql" [] (List.replicate 12 0) =
      "AAAAAAAAAAAAAAAAFtmEiJLwQxFDq+Jz7l11aQ==".data ∧
    "AAAAAAAAAAAAAAAAFtmEiJLwQxFDq+Jz7l11aR==".data ≠
      "AAAAAAAAAAAAAAAAFtmEiJLwQxFDq+Jz7l11aQ==".data ∧
    DecryptConfig ⟨List.range 32⟩ "user-1" "postgresql"
        "AAAAAAAAAAAAAAAAFtmEiJLwQxFDq+Jz7l11aR==".data = .ok [] := by
  refine ⟨by rfl, by decide, by rfl⟩

theorem strBytes_append (s1 s2 : String) : strBytes (s1 ++ s2) = strBytes s1 ++ strBytes s2 := by
  unfold strBytes
  show (s1.data ++ s2.data).map Char.toNat = _
  rw [List.map_append]

theorem deriveUserKey_colon_ambiguity (ce : ConfigEncryption) (userID configType : String) :
    deriveUserKey ce (userID ++ ":ssh") configType =
      deriveUserKey ce userID ("ssh:" ++ configType) := by
  unfold deriveUserKey
  congr 1
  rw [strBytes_append, strBytes_append]
  have hmid : strBytes ":ssh" ++ (strBytes ":" ++ strBytes configType) =
      strBytes ":" ++ (strBytes "ssh:" ++ strBytes configType) := by
    rw [← List.append_assoc, ← List.append_assoc]
    have h1 : strBytes ":ssh" ++ strBytes ":" = strBytes ":" ++ strBytes "ssh:" := by decide
    rw [h1]
  simp only [List.append_assoc]
  rw [hmid]

theorem append_colon_ssh_ne (userID : String) : userID ++ ":ssh" ≠ userID := by
  intro h
  have hd2 : userID.data ++ ":ssh".data = userID.data ++ [] := by
    rw [List.append_nil]
    exact congrArg String.data h
  have h3 := List.append_cancel_left hd2
  simp at h3

theorem decryptConfig_of_sealed (ce : ConfigEncryption) (userID configType : String)
    (data nonce : Bytes) (hn : nonce.length = 12) (hnv : bytesOk nonce) (hd : bytesOk data) :
    DecryptConfig ce userID configType
      (b64EncodeBytes (gcmSeal (deriveUserKey ce userID configType) nonce data)) = .ok data := by
  unfold DecryptConfig
  simp only [b64_roundtrip _ (bytesOk_gcmSeal hnv hd)]
  rw [if_neg (by rw [length_gcmSeal _ _ hn]; omega)]
  have htake : (gcmSeal (deriveUserKey ce userID configType) nonce data).take 12 = nonce := by
    unfold gcmSeal
    rw [List.append_assoc]
    exact List.take_left' hn
  rw [htake, gcmOpen_of_seal_parts _ _ hn]

/-- C4 amended: tamper detection holds unconditionally at the raw-byte layer
for the authentication tag — replacing any single byte of the tag portion of
the sealed ciphertext with any other byte value makes DecryptConfig fail and
return no plaintext — but neither of the claim's other halves holds as
stated: a single-byte change of the stored base64 string affecting only the
unused trailing bits of the final character decodes to the identical raw
ciphertext and returns the original plaintext, and a different
(userID, configType) identity does not always mean a different derived key:
the colon-joined derivation string is ambiguous, so encrypting as
(userID + ":ssh", configType) and decrypting as (userID, "ssh:" + configType)
derives the same key, succeeds and returns the plaintext. -/
theorem C4_amended_tamper_detection (ce : ConfigEncryption) (userID configType : String)
    (data nonce : Bytes) (hn : nonce.length = 12) (hnv : bytesOk nonce) (hd : bytesOk data)
    (i : Nat) (hi : i < 16) (v : Nat) (hv : v < 256)
    (hne : v ≠ (gcmSeal (deriveUserKey ce userID configType) nonce data).getD
      (12 + data.length + i) 0) :
    ((DecryptConfig ce userID configType
        (b64EncodeBytes
          ((gcmSeal (deriveUserKey ce userID configType) nonce data).set
            (12 + data.length + i) v))).isOk = false ∧
      (gcmSeal (deriveUserKey ce userID configType) nonce data).set (12 + data.length + i) v ≠
        gcmSeal (deriveUserKey ce userID configType) nonce data) ∧
    (DecryptConfig ce userID ("ssh:" ++ configType)
        (EncryptConfig ce (userID ++ ":ssh") configType data nonce) = .ok data ∧
      userID ++ ":ssh" ≠ userID) := by
  refine ⟨?_, ?_, append_colon_ssh_ne userID⟩
  case refine_2 =>
    unfold EncryptConfig
    rw [deriveUserKey_colon_ambiguity]
    exact decryptConfig_of_sealed ce userID ("ssh:" ++ configType) data nonce hn hnv hd
  set key := deriveUserKey ce userID configType with hkeydef
  set j0 := blockToNat (nonce ++ [0, 0, 0, 1]) with hj0def
  set ct := gctr key (inc32 j0) data with hctdef
  set tag := gcmTag key j0 ct with htagdef
  have hseal : gcmSeal key nonce data = (nonce ++ ct) ++ tag := rfl
  have hctlen : ct.length = data.length := length_gctr _ _ _
  have hpref : (nonce ++ ct).length = 12 + data.length := by
    rw [List.length_append, hn, hctlen]
  have htaglen : tag.length = 16 := length_gcmTag _ _ _
  have htagOk : bytesOk tag := bytesOk_gcmTag _ _ _
  have hgetd : (gcmSeal key nonce data).getD (12 + data.length + i) 0 = tag.getD i 0 := by
    rw [hseal, ← hpref, getD_append_right]
  have hvne : v ≠ tag.getD i 0 := by
    rw [hgetd] at hne
    exact hne
  have hbump : (gcmSeal key nonce data).set (12 + data.length + i) v =
      (nonce ++ ct) ++ tag.set i v := by
    rw [hseal, ← hpref, set_append_right]
  have hsetne : tag.set i v ≠ tag := set_ne_of_elem_ne (by omega) hvne
  constructor
  · rw [hbump]
    have hok : bytesOk ((nonce ++ ct) ++ tag.set i v) :=
      bytesOk_append (bytesOk_append hnv (bytesOk_gctr _ _ hd)) (bytesOk_set htagOk hv i)
    unfold DecryptConfig
    simp only [b64_roundtrip _ hok]
    have hlen2 : ((nonce ++ ct) ++ tag.set i v).length = 28 + data.length := by
      rw [List.length_append, List.length_set, hpref, htaglen]
      omega
    rw [if_neg (by rw [hlen2]; omega)]
    have htake : ((nonce ++ ct) ++ tag.set i v).take 12 = nonce := by
      rw [List.append_assoc]
      exact List.take_left' hn
    have hdrop : ((nonce ++ ct) ++ tag.set i v).drop 12 = ct ++ tag.set i v := by
      rw [List.append_assoc]
      exact List.drop_left' hn
    rw [htake, hdrop]
    unfold gcmOpen
    have hlen3 : (ct ++ tag.set i v).length = ct.length + 16 := by
      rw [List.length_append, List.length_set, htaglen]
    rw [if_neg (by rw [hlen3]; omega)]
    have hsplit : (ct ++ tag.set i v).length - 16 = ct.length := by
      rw [hlen3]
      omega
    rw [hsplit, List.take_left, List.drop_left]
    rw [if_neg (by rw [← hj0def, ← htagdef]; exact hsetne)]
    rfl
  · rw [hbump, hseal]
    intro heq
    exact hsetne (List.append_cancel_left heq)

set_option maxHeartbeats 4000000 in
/-- C4 witness: replacing tag byte 5 of a one-byte config by zero, and the
colon-ambiguous identity pair around u1. -/
theorem C4_amended_tamper_detection_witness :
    ((List.replicate 12 3 : Bytes).length = 12) ∧ bytesOk (List.replicate 12 3) ∧
    bytesOk [9] ∧ (5 < 16) ∧ (0 < 256) ∧
    (0 ≠ (gcmSeal (deriveUserKey ⟨List.range 32⟩ "u1" "postgresql")
      (List.replicate 12 3) [9]).getD (12 + ([9] : Bytes).length + 5) 0) ∧
    (((DecryptConfig ⟨List.range 32⟩ "u1" "postgresql"
        (b64EncodeBytes
          ((gcmSeal (deriveUserKey ⟨List.range 32⟩ "u1" "postgresql")
              (List.replicate 12 3) [9]).set (12 + ([9] : Bytes).length + 5) 0))).isOk = false ∧
      (gcmSeal (deriveUserKey ⟨List.range 32⟩ "u1" "postgresql")
          (List.replicate 12 3) [9]).set (12 + ([9] : Bytes).length + 5) 0 ≠
        gcmSeal (deriveUserKey ⟨List.range 32⟩ "u1" "postgresql") (List.replicate 12 3) [9]) ∧
    (DecryptConfig ⟨List.range 32⟩ "u1" ("ssh:" ++ "postgresql")
        (EncryptConfig ⟨List.range 32⟩ ("u1" ++ ":ssh") "postgresql" [9]
          (List.replicate 12 3)) = .ok [9] ∧
      "u1" ++ ":ssh" ≠ "u1")) :=
  ⟨by decide, by decide, by decide, by decide, by decide, by decide,
    C4_amended_tamper_detection _ _ _ _ _ (by decide) (by decide) (by decide) 5 (by decide) 0
      (by decide) (by decide)⟩

theorem goElems_goAppend (s : GoSlice α) (x : α) : goElems (goAppend s x) = goElems s ++ [x] := rfl

theorem goElems_foldl (l : List α) (init : GoSlice α) :
    goElems (l.foldl goAppend init) = goElems init ++ l := by
  induction l generalizing init with
  | nil => simp
  | cons x xs ih => rw [List.foldl_cons, ih, goElems_goAppend, List.append_assoc]; rfl

/-! ## C10: RowCount counts the fetched rows -/

/-- C10: for every parsed query result, RowCount equals the number of rows
actually collected into Rows — int64(len(data)) — and the collected rows are
exactly the fetched ones in order; no rows-affected figure is involved. -/
theorem C10_rowCount_counts_fetched_rows (α : Type) (cols : List String)
    (fetched : List (List α)) :
    (parseQueryResult α cols fetched).rowCount =
      Int.ofNat (goElems (parseQueryResult α cols fetched).rows).length ∧
    goElems (parseQueryResult α cols fetched).rows = fetched := by
  refine ⟨rfl, ?_⟩
  show goElems (fetched.foldl goAppend goNil) = fetched
  rw [goElems_foldl]; rfl

/-! ## C8: empty schema gives nil slices, marshalled as JSON null -/

/-- C8 counterexample: with zero tables and zero views the call succeeds,
but both slices stay nil, and encoding/json renders a nil slice as null —
not as the empty array the claim requires. -/
theorem C8_counterexample :
    getDatabaseSchema (.ok []) (.ok []) (fun _ _ => .ok []) =
      .ok { tables := goNil, views := goNil } ∧
    jsonOfSchema { tables := goNil, views := goNil } =
      Json.obj [("tables", Json.null), ("views", Json.null)] ∧
    Json.null ≠ Json.arr [] :=
  ⟨rfl, rfl, fun h => nomatch h⟩

/-- C8 amended: a database with zero user tables and zero views returns no
error, but the tables and views fields are nil slices, serialized by
encoding/json as JSON null rather than as empty arrays. -/
theorem C8_amended (colsFor : String → String → Except String (List ColumnInfo)) :
    getDatabaseSchema (.ok []) (.ok []) colsFor = .ok { tables := goNil, views := goNil } ∧
    jsonOfSchema { tables := goNil, views := goNil } =
      Json.obj [("tables", Json.null), ("views", Json.null)] :=
  ⟨rfl, rfl⟩

/-! ## C9: package-level Encrypt and Decrypt short-circuit empty strings -/

/-- C9: Encrypt maps the empty plaintext to the empty string with no error,
bypassing nonce generation and sealing entirely, and Decrypt maps the empty
ciphertext back to the empty string with no error. -/
theorem C9_empty_string_passthrough (encryptionKey nonce : Bytes) :
    Encrypt encryptionKey nonce "" = .ok [] ∧ Decrypt encryptionKey [] = .ok "" :=
  ⟨rfl, rfl⟩

/-! ## C1: the dangerous-query denylist -/

/-- C1 counterexample: the trimmed upper-cased text SELECT * FROM BACKDROP
contains the denylisted keyword DROP, yet ExecuteQuery does not reject it:
isDangerousQuery only matches the keyword with a trailing space. -/
theorem C1_counterexample :
    containsStr (upperChars (trimChars "SELECT * FROM backdrop".data)) "DROP".data = true ∧
    executeQueryGate "SELECT * FROM backdrop".data = ExecOutcome.connectionStage := by
  exact ⟨by decide, by decide⟩

/-- C1 amended: ExecuteQuery rejects a non-empty SQL string with the
validation error, before consulting GetUserDatabaseConnection, exactly when
its trimmed upper-cased text contains one of the denylist entries as
written in the source — DROP, DELETE, TRUNCATE, ALTER, GRANT, REVOKE,
INSERT, UPDATE and COPY each require a trailing space, CREATE USER and
DROP USER match verbatim; every other non-empty SQL string passes this
validation step and proceeds to the connection stage. -/
theorem C1_keyword_gate (sql : List Char) (h : sql.isEmpty = false) :
    (executeQueryGate sql = ExecOutcome.validationError ↔
      ∃ k ∈ dangerousKeywords, containsStr (upperChars (trimChars sql)) k = true) ∧
    (executeQueryGate sql = ExecOutcome.connectionStage ↔
      ∀ k ∈ dangerousKeywords, containsStr (upperChars (trimChars sql)) k = false) := by
  unfold executeQueryGate isDangerousQuery
  rw [h]
  simp only [Bool.false_eq_true, if_false]
  by_cases hd : dangerousKeywords.any
      (fun k => containsStr (upperChars (trimChars sql)) k) = true
  · rw [if_pos hd]
    rw [List.any_eq_true] at hd
    refine ⟨⟨fun _ => hd, fun _ => rfl⟩, ?_, ?_⟩
    · intro hcontra; exact absurd hcontra (by decide)
    · intro hall
      obtain ⟨k, hk, hc⟩ := hd
      rw [hall k hk] at hc
      exact absurd hc (by decide)
  · rw [if_neg hd]
    rw [List.any_eq_true] at hd
    push_neg at hd
    refine ⟨⟨?_, ?_⟩, ⟨?_, ?_⟩⟩
    · intro hcontra; exact absurd hcontra (by decide)
    · intro ⟨k, hk, hc⟩; exact absurd hc (by simpa using hd k hk)
    · intro _ k hk
      have := hd k hk
      simpa using this
    · intro _; rfl

/-- C1 witness: the keyword gate applied to DROP TABLE users. -/
theorem C1_keyword_gate_witness :
    ("DROP TABLE users".data.isEmpty = false) ∧
    ((executeQueryGate "DROP TABLE users".data = ExecOutcome.validationError ↔
      ∃ k ∈ dangerousKeywords,
        containsStr (upperChars (trimChars "DROP TABLE users".data)) k = true) ∧
    (executeQueryGate "DROP TABLE users".data = ExecOutcome.connectionStage ↔
      ∀ k ∈ dangerousKeywords,
        containsStr (upperChars (trimChars "DROP TABLE users".data)) k = false)) :=
  ⟨by decide, C1_keyword_gate _ (by decide)⟩

/-! ## C5: the appended LIMIT -/

/-- C5 counterexample: SELECT limitation FROM t has no LIMIT clause, yet no
LIMIT is appended, because the code only checks for the substring LIMIT in
the upper-cased text and the identifier LIMITATION contains it. -/
theorem C5_counterexample :
    buildExecutedSQL "SELECT limitation FROM t".data
        { limit := 1000, timeout := 30, explainPlan := false, dryRun := false } =
      "SELECT limitation FROM t".data ∧
    "SELECT limitation FROM t".data ≠
      "SELECT limitation FROM t".data ++ " LIMIT 1000".data := by
  exact ⟨by decide, by decide⟩

/-- C5 amended: with explain_plan unset, a request whose trimmed SQL starts
with SELECT (case-insensitive) has LIMIT n appended — n being options.limit
if nonzero and 1000 otherwise — exactly when the upper-cased text does not
contain the substring LIMIT anywhere (a LIMIT clause, but equally an
identifier or literal containing LIMIT); when the substring occurs the SQL
is executed unchanged. With explain_plan set the statement is wrapped in
EXPLAIN first and no longer starts with SELECT, so no LIMIT is appended. -/
theorem C5_limit_append (sql : List Char) (o : QueryOptions)
    (hexp : o.explainPlan = false)
    (hsel : leadsList "SELECT".data (upperChars (trimChars sql)) = true) :
    (containsStr (upperChars (trimChars sql)) "LIMIT".data = false →
      buildExecutedSQL sql (applyDefaultOptions o) =
        trimChars sql ++ " LIMIT ".data ++
          (toString (if o.limit = 0 then 1000 else o.limit)).data) ∧
    (containsStr (upperChars (trimChars sql)) "LIMIT".data = true →
      buildExecutedSQL sql (applyDefaultOptions o) = trimChars sql) := by
  unfold buildExecutedSQL applyDefaultOptions
  simp only [hexp, Bool.false_eq_true, if_false]
  constructor
  · intro hnc; rw [hsel, hnc]; simp
  · intro hc; rw [hsel, hc]; simp

/-- C5 witness: the LIMIT rule applied to a bare lower-case select with
default options. -/
theorem C5_limit_append_witness :
    (({ limit := 0, timeout := 0, explainPlan := false, dryRun := false } :
        QueryOptions).explainPlan = false) ∧
    (leadsList "SELECT".data (upperChars (trimChars "select * from t".data)) = true) ∧
    ((containsStr (upperChars (trimChars "select * from t".data)) "LIMIT".data = false →
      buildExecutedSQL "select * from t".data
          (applyDefaultOptions
            { limit := 0, timeout := 0, explainPlan := false, dryRun := false }) =
        trimChars "select * from t".data ++ " LIMIT ".data ++
          (toString (if (0 : Int) = 0 then 1000 else (0 : Int))).data) ∧
    (containsStr (upperChars (trimChars "select * from t".data)) "LIMIT".data = true →
      buildExecutedSQL "select * from t".data
          (applyDefaultOptions
            { limit := 0, timeout := 0, explainPlan := false, dryRun := false }) =
        trimChars "select * from t".data)) :=
  ⟨by decide, by decide, C5_limit_append _ _ (by decide) (by decide)⟩

/-! ## C2: the cold-cache construction race -/

/-- C2 counterexample: two concurrent GetUserDatabaseConnection calls for
the same user on a cold cache, interleaved as check-check-insert-insert,
construct two pools — not exactly one — and the callers end up holding
different pool references. -/
theorem C2_counterexample :
    (runSchedule (coldStart 2) [0, 1, 0, 1]).global.builtPools.length = 2 ∧
    resultOf (runSchedule (coldStart 2) [0, 1, 0, 1]) 0 = some 0 ∧
    resultOf (runSchedule (coldStart 2) [0, 1, 0, 1]) 1 = some 1 ∧
    resultOf (runSchedule (coldStart 2) [0, 1, 0, 1]) 0 ≠
      resultOf (runSchedule (coldStart 2) [0, 1, 0, 1]) 1 := by
  exact ⟨by decide, by decide, by decide, by decide⟩

/-- C2 amended: construction is not serialized per user. Because the
read-locked lookup and the write-locked insert bracket an unlocked
construction, there is an interleaving of two cold-cache calls that builds
two pools whose callers receive different references (the second insert
silently overwriting the first); only when the calls do not overlap is a
single pool built and shared by both callers. -/
theorem C2_unserialized_construction :
    (∃ sched : List Nat,
      (runSchedule (coldStart 2) sched).global.builtPools.length = 2 ∧
      resultOf (runSchedule (coldStart 2) sched) 0 ≠
        resultOf (runSchedule (coldStart 2) sched) 1) ∧
    ((runSchedule (coldStart 2) [0, 0, 1]).global.builtPools.length = 1 ∧
      resultOf (runSchedule (coldStart 2) [0, 0, 1]) 0 = some 0 ∧
      resultOf (runSchedule (coldStart 2) [0, 0, 1]) 1 = some 0) :=
  ⟨⟨[0, 1, 0, 1], by decide, by decide⟩, by decide, by decide, by decide⟩

/-! ## C7: switching the active configuration -/

/-- C7 counterexample: after configuring ssh and then postgresql, the
committed state flags both the ssh row and the postgresql row as active —
the previous variant is not made inactive, so it is false that exactly one
variant is observed as active. -/
theorem C7_counterexample :
    activeFlagCount
      (createDatabaseConfigStep (createDatabaseConfigStep emptyConfigDB ConnType.ssh 1)
        ConnType.postgresql 2) = 2 ∧
    rowOf
      (createDatabaseConfigStep (createDatabaseConfigStep emptyConfigDB ConnType.ssh 1)
        ConnType.postgresql 2) ConnType.ssh = some (true, 1) := by
  exact ⟨by decide, by decide⟩

/-- C7 amended: CreateDatabaseConfig commits one atomic transaction, after
which users.active_connection_type names the new variant and a read through
getUserDatabaseConfig observes exactly the complete new configuration (a
read before the commit observes the previous state unchanged) — so no mixed
state is observable; but the previous variant's per-table is_active flag is
left untouched and stays true, so uniqueness of the active variant holds
only through the single active_connection_type pointer, not through the
per-table flags. -/
theorem C7_switch_atomic (s : ConfigDB) (ct : ConnType) (payload : Nat)
    (h : ct ≠ ConnType.other) :
    getUserDatabaseConfig (createDatabaseConfigStep s ct payload) = .ok (ct, payload) ∧
    (createDatabaseConfigStep s ct payload).activeConnectionType = some ct ∧
    (∀ ct2, ct2 ≠ ct → rowOf (createDatabaseConfigStep s ct payload) ct2 = rowOf s ct2) := by
  cases ct with
  | postgresql =>
    refine ⟨rfl, rfl, ?_⟩
    intro ct2 hne; cases ct2 <;> first | rfl | exact absurd rfl hne
  | ssh =>
    refine ⟨rfl, rfl, ?_⟩
    intro ct2 hne; cases ct2 <;> first | rfl | exact absurd rfl hne
  | wireguard =>
    refine ⟨rfl, rfl, ?_⟩
    intro ct2 hne; cases ct2 <;> first | rfl | exact absurd rfl hne
  | other => exact absurd rfl h

/-- C7 witness: switching a user from ssh to postgresql. -/
theorem C7_switch_atomic_witness :
    (ConnType.postgresql ≠ ConnType.other) ∧
    (getUserDatabaseConfig
        (createDatabaseConfigStep (createDatabaseConfigStep emptyConfigDB ConnType.ssh 1)
          ConnType.postgresql 2) = .ok (ConnType.postgresql, 2) ∧
    (createDatabaseConfigStep (createDatabaseConfigStep emptyConfigDB ConnType.ssh 1)
        ConnType.postgresql 2).activeConnectionType = some ConnType.postgresql ∧
    (∀ ct2, ct2 ≠ ConnType.postgresql →
      rowOf (createDatabaseConfigStep (createDatabaseConfigStep emptyConfigDB ConnType.ssh 1)
          ConnType.postgresql 2) ct2 =
        rowOf (createDatabaseConfigStep emptyConfigDB ConnType.ssh 1) ct2)) :=
  ⟨by decide, C7_switch_atomic _ _ _ (by decide)⟩

/-! ## C6: failure cleanup in createUserConnection -/

theorem createUserConnection_cleanup_aux :
    ∀ (cfg : ConnConfig) (o : ConnOracles),
      (createUserConnection cfg o).result.isOk = false →
        ((createUserConnection cfg o).tunnelBuilt = true →
          (createUserConnection cfg o).tunnelClosed = true) ∧
        ((createUserConnection cfg o).poolBuilt = true →
          (createUserConnection cfg o).poolClosed = true) := by
  decide

/-- C6: when any step of connection construction fails, createUserConnection
closes every resource it built so far — the tunnel on a parse, pool or ping
failure, and the pool on a ping failure, which in particular is never
returned — reports an error, and GetUserDatabaseConnection then leaves both
per-user caches exactly as they were. -/
theorem C6_failure_closes_everything (cfg : ConnConfig) (o : ConnOracles) (c : ConnCaches)
    (hcold : c.poolFor = none)
    (herr : (createUserConnection cfg o).result.isOk = false) :
    ((createUserConnection cfg o).tunnelBuilt = true →
      (createUserConnection cfg o).tunnelClosed = true) ∧
    ((createUserConnection cfg o).poolBuilt = true →
      (createUserConnection cfg o).poolClosed = true) ∧
    (∀ configFound, (getUserDatabaseConnection c configFound cfg o).2 = c) := by
  refine ⟨(createUserConnection_cleanup_aux cfg o herr).1,
    (createUserConnection_cleanup_aux cfg o herr).2, ?_⟩
  intro configFound
  unfold getUserDatabaseConnection
  rw [hcold]
  cases configFound with
  | false => rfl
  | true =>
    simp only [Bool.not_true, Bool.false_eq_true, if_false]
    cases hres : (createUserConnection cfg o).result with
    | error e => rfl
    | ok b => rw [hres] at herr; simp [Except.isOk, Except.toBool] at herr

/-- C6 witness: a postgresql build whose liveness ping fails. -/
theorem C6_failure_closes_everything_witness :
    (({ poolFor := none, tunnelFor := none } : ConnCaches).poolFor = none) ∧
    ((createUserConnection
        { connectionType := ConnType.postgresql, sshPresent := false, wgPresent := false,
          wgURLNonEmpty := false }
        { tunnelOk := true, parseOrigOk := true, parseOk := true, poolOk := true,
          pingOk := false }).result.isOk = false) ∧
    (((createUserConnection
        { connectionType := ConnType.postgresql, sshPresent := false, wgPresent := false,
          wgURLNonEmpty := false }
        { tunnelOk := true, parseOrigOk := true, parseOk := true, poolOk := true,
          pingOk := false }).tunnelBuilt = true →
      (createUserConnection
        { connectionType := ConnType.postgresql, sshPresent := false, wgPresent := false,
          wgURLNonEmpty := false }
        { tunnelOk := true, parseOrigOk := true, parseOk := true, poolOk := true,
          pingOk := false }).tunnelClosed = true) ∧
    ((createUserConnection
        { connectionType := ConnType.postgresql, sshPresent := false, wgPresent := false,
          wgURLNonEmpty := false }
        { tunnelOk := true, parseOrigOk := true, parseOk := true, poolOk := true,
          pingOk := false }).poolBuilt = true →
      (createUserConnection
        { connectionType := ConnType.postgresql, sshPresent := false, wgPresent := false,
          wgURLNonEmpty := false }
        { tunnelOk := true, parseOrigOk := true, parseOk := true, poolOk := true,
          pingOk := false }).poolClosed = true) ∧
    (∀ configFound,
      (getUserDatabaseConnection { poolFor := none, tunnelFor := none } configFound
        { connectionType := ConnType.postgresql, sshPresent := false, wgPresent := false,
          wgURLNonEmpty := false }
        { tunnelOk := true, parseOrigOk := true, parseOk := true, poolOk := true,
          pingOk := false }).2 = { poolFor := none, tunnelFor := none })) :=
  ⟨rfl, by decide, C6_failure_closes_everything _ _ _ rfl (by decide)⟩

end SqlBase
